import Mathlib

/-!
Verification of the shelf-scanner backend's recognition/recommendation
pipeline against its specification.

The definitions below are a shallow embedding of the Python sources:
  * `backend/app/services/ai/google_vision_service.py` (text normalization),
  * `backend/app/services/ai/openai_service.py` (multimodal provider and
    recommendation generator),
  * `backend/app/api/v1/endpoints/scan.py` (`scan_shelf` orchestration),
  * `backend/app/api/v1/endpoints/recommend.py` (`generate_recommendations`
    and `_get_fallback_recommendations`).

Strings manipulated character by character are modelled as `List Char`
(ASCII-faithful: Python's `str.lower`/`\w`/`isupper` agree with Lean's
`Char.toLower`/`Char.isAlphanum`/`Char.isUpper` on ASCII input).

Floating-point scores are modelled as integers counting hundredths of the
unit interval (0.5 ↦ 50, 0.1 ↦ 10, 1.0 ↦ 100, …). Every score literal in
the sources is an exact multiple of 0.05, and the sums, subtractions,
clamps and comparisons the sources perform on them are exact in IEEE
double precision, so the integer model reproduces the float computation
bit for bit. `scoreQ` converts a modelled score back to the rational it
denotes for statements about the real interval [0, 1].
-/

namespace ShelfScanner

/-! ### Character/string primitives shared by the embeddings -/

/-- Python's `str.strip()`: remove leading and trailing whitespace. -/
def pyStrip (l : List Char) : List Char :=
  ((l.dropWhile Char.isWhitespace).reverse.dropWhile Char.isWhitespace).reverse

/-- Auxiliary for Python's `str.split()` (split on whitespace runs,
dropping empty pieces); `acc` holds the current word reversed. -/
def splitWsAux : List Char → List Char → List (List Char)
  | [], acc => if acc.isEmpty then [] else [acc.reverse]
  | c :: cs, acc =>
    if c.isWhitespace then
      if acc.isEmpty then splitWsAux cs [] else acc.reverse :: splitWsAux cs []
    else splitWsAux cs (c :: acc)

/-- Python's `str.split()` with no argument. -/
def splitWs (l : List Char) : List (List Char) :=
  splitWsAux l []

/-- Python's `' '.join(ws)`. -/
def joinSpace : List (List Char) → List Char
  | [] => []
  | [w] => w
  | w :: rest => w ++ ' ' :: joinSpace rest

/-- Python's `str.split(sep)` restricted to one separator character
(`full_text.split('\n')`): empty pieces are kept. -/
def splitOnChar (sep : Char) : List Char → List (List Char)
  | [] => [[]]
  | c :: cs =>
    if c = sep then [] :: splitOnChar sep cs
    else
      match splitOnChar sep cs with
      | w :: rest => (c :: w) :: rest
      | [] => [[c]]

/-- Boolean list-prefix test (decidable-equality form). -/
def isPrefixL : List Char → List Char → Bool
  | [], _ => true
  | _ :: _, [] => false
  | a :: as, b :: bs => if a = b then isPrefixL as bs else false

/-- Split `l` at the first occurrence of `sep` (Python `text.split(sep, 1)`
when `sep in text`); `none` when `sep` does not occur. -/
def splitOnceAux (sep : List Char) : List Char → Option (List Char × List Char)
  | [] => if sep.isEmpty then some ([], []) else none
  | c :: cs =>
    if isPrefixL sep (c :: cs) then some ([], (c :: cs).drop sep.length)
    else
      match splitOnceAux sep cs with
      | some (a, b) => some (c :: a, b)
      | none => none

/-- Python's substring test `pat in l`. -/
def containsSub (l pat : List Char) : Bool :=
  (splitOnceAux pat l).isSome

/-- Scores: hundredths of the unit interval (see the header comment). -/
abbrev Score := Int

/-- The rational denoted by a modelled score (`50 ↦ 1/2`). -/
def scoreQ (s : Score) : ℚ := (s : ℚ) / 100

/-- Python's binary `max` on numbers (scores). -/
def scoreMax (a b : Score) : Score := if a ≤ b then b else a

/-- Python's binary `min` on numbers (scores). -/
def scoreMin (a b : Score) : Score := if a ≤ b then a else b

/-! ### `GoogleVisionService` text normalization
(`_clean_title`, `_is_likely_metadata`, `_separate_title_author`,
`_estimate_confidence`, `_extract_books_from_text`). -/

/-- Characters kept by `re.sub(r'[^\w\s\-:.,\'\"()]', ' ', text)`:
word characters, whitespace, and the listed punctuation. -/
def keepChar (c : Char) : Bool :=
  c.isAlphanum || c = '_' || c.isWhitespace ||
    ['-', ':', '.', ',', '\'', '"', '(', ')'].contains c

/-- The `noise_words` list of `_clean_title`. -/
def noiseWords : List (List Char) :=
  ["the", "a", "an", "and", "or", "but", "of", "in", "on", "at", "to", "for"].map
    String.toList

/-- `_clean_title`, line 164: substitute disallowed characters by spaces. -/
def cleanTitleSubst (text : List Char) : List Char :=
  text.map fun c => if keepChar c then c else ' '

/-- `_clean_title`, line 165: normalize whitespace. -/
def cleanTitleCleaned (text : List Char) : List Char :=
  joinSpace (splitWs (cleanTitleSubst text))

/-- `_clean_title`, lines 169-173: the word list, with short noise words
dropped when there are more than 2 words. -/
def cleanTitleWords (text : List Char) : List (List Char) :=
  let ws := splitWs (cleanTitleCleaned text)
  if ws.length > 2 then
    ws.filter fun w => !(noiseWords.contains (w.map Char.toLower)) || w.length > 3
  else ws

/-- `_clean_title`. -/
def cleanTitle (text : List Char) : List Char :=
  joinSpace (cleanTitleWords text)

/-- Regex `^\d+$`: the whole (nonempty) string is digits. -/
def isAllDigits (l : List Char) : Bool :=
  !l.isEmpty && l.all Char.isDigit

/-- Regex `^\$\d+`: a dollar sign followed by a digit at the start. -/
def startsDollarDigits : List Char → Bool
  | '$' :: d :: _ => d.isDigit
  | _ => false

/-- Regex `^\d{4}$`: exactly four digits. -/
def isFourDigits (l : List Char) : Bool :=
  l.length = 4 && l.all Char.isDigit

/-- Regex `^[A-Z]{2,4}\d+` anchored at the start: `k` ASCII uppercase
letters (2 ≤ k ≤ 4) followed by a digit. -/
def catalogCodeAt (k : Nat) (l : List Char) : Bool :=
  decide ((l.take k).length = k) &&
    (l.take k).all (fun c => 'A' ≤ c && c ≤ 'Z') &&
    ((l.drop k).headD ' ').isDigit

/-- Regex `^[A-Z]{2,4}\d+` (searched, but anchored so equivalent to a
match at the start). -/
def catalogCode (l : List Char) : Bool :=
  catalogCodeAt 2 l || catalogCodeAt 3 l || catalogCodeAt 4 l

/-- `_is_likely_metadata`: every pattern is searched in `text.lower()`.
Because the text is lowercased first, the `[A-Z]` catalog pattern can
never match on ASCII input; the embedding keeps it verbatim. -/
def isLikelyMetadata (text : List Char) : Bool :=
  let tl := text.map Char.toLower
  isAllDigits tl ||
  containsSub tl "isbn".toList ||
  startsDollarDigits tl ||
  isFourDigits tl ||
  catalogCode tl ||
  containsSub tl "barcode".toList ||
  containsSub tl "copyright".toList ||
  containsSub tl "edition".toList ||
  containsSub tl "published".toList ||
  containsSub tl "page".toList

/-- The separator list of `_separate_title_author`; the fourth entry is the
source's literal mojibake em-dash `' â€“ '` (U+00E2 U+20AC U+201C). -/
def separators : List (List Char) :=
  [" by ".toList, " BY ".toList, " - ".toList,
   [' ', Char.ofNat 0xE2, Char.ofNat 0x20AC, Char.ofNat 0x201C, ' '], " | ".toList]

/-- First separator of `seps` occurring in `text`, with the split around
its first occurrence. -/
def sepSplit : List (List Char) → List Char → Option (List Char × List Char)
  | [], _ => none
  | sep :: rest, text =>
    match splitOnceAux sep text with
    | some pr => some pr
    | none => sepSplit rest text

/-- `_separate_title_author`. -/
def separateTitleAuthor (text : List Char) : List Char × Option (List Char) :=
  match sepSplit separators text with
  | some (l, r) => (pyStrip l, some (pyStrip r))
  | none => (pyStrip text, none)

/-- Regex search `\d{3,}`: three consecutive digits somewhere. -/
def hasDigitRun3 : List Char → Bool
  | a :: b :: c :: rest =>
    (a.isDigit && b.isDigit && c.isDigit) || hasDigitRun3 (b :: c :: rest)
  | _ => false

/-- `_estimate_confidence` (scores in hundredths: 0.5 ↦ 50, ±0.1 ↦ ±10,
−0.2 ↦ −20, clamp to [10, 100]); the source indexes `text[0]`, which
presumes a nonempty argument (all call sites guarantee it), so the head is
read with a non-uppercase default. -/
def estimateConfidence (text : List Char) : Score :=
  let confidence : Score := 50
  let confidence := if text.length > 5 then confidence + 10 else confidence
  let confidence := if (splitWs text).length > 1 then confidence + 10 else confidence
  let confidence := if (text.headD ' ').isUpper then confidence + 10 else confidence
  let confidence :=
    if ((splitWs text).drop 1).any (fun w => (w.headD ' ').isUpper) then
      confidence + 10
    else confidence
  let confidence := if hasDigitRun3 text then confidence - 20 else confidence
  let confidence := if text.length > 100 then confidence - 20 else confidence
  scoreMax 10 (scoreMin 100 confidence)

/-- The candidate dictionaries produced by `_extract_books_from_text`. -/
structure BookCandidate where
  title : List Char
  author : Option (List Char)
  confidence : Score
  position : Option (List Char)
  deriving Repr, DecidableEq

/-- Stable descending insertion by confidence: `x` is placed after every
earlier element of equal or higher confidence. -/
def insertDesc (x : BookCandidate) : List BookCandidate → List BookCandidate
  | [] => [x]
  | y :: ys => if y.confidence < x.confidence then x :: y :: ys else y :: insertDesc x ys

/-- `books.sort(key=lambda x: x['confidence'], reverse=True)`: Python's
stable descending sort, realized as stable insertion from the left. -/
def sortByConfDesc (l : List BookCandidate) : List BookCandidate :=
  l.foldl (fun acc x => insertDesc x acc) []

/-- The accepting loop of `_extract_books_from_text`: `processedTitles` is
the set of lowercased accepted cleaned titles, `books` the accepted
candidates in order; the loop breaks once `maxBooks` are accepted. -/
def extractLoop (maxBooks : Nat) :
    List (List Char) → List (List Char) → List BookCandidate → List BookCandidate
  | [], _, books => books
  | line :: rest, processedTitles, books =>
    if line.length < 3 then extractLoop maxBooks rest processedTitles books
    else if isLikelyMetadata line then extractLoop maxBooks rest processedTitles books
    else
      let cleanedTitle := cleanTitle line
      if cleanedTitle ≠ [] ∧ cleanedTitle.map Char.toLower ∉ processedTitles then
        let ta := separateTitleAuthor cleanedTitle
        let confidence := estimateConfidence cleanedTitle
        let book : BookCandidate :=
          { title := ta.1, author := ta.2, confidence := confidence, position := none }
        let books' := books ++ [book]
        if maxBooks ≤ books'.length then books'
        else extractLoop maxBooks rest (cleanedTitle.map Char.toLower :: processedTitles) books'
      else extractLoop maxBooks rest processedTitles books

/-- `_extract_books_from_text`: the first detected text is the full-image
blob; split into stripped nonempty lines, run the accepting loop, sort by
confidence (stable) and truncate. -/
def extractBooksFromText (texts : List String) (maxBooks : Nat) : List BookCandidate :=
  match texts with
  | [] => []
  | fullText :: _ =>
    let lines := ((splitOnChar '\n' fullText.toList).map pyStrip).filter (· ≠ [])
    let books := extractLoop maxBooks lines [] []
    (sortByConfDesc books).take maxBooks

/-! ### `OpenAIVisionService.identify_books` response handling
(`openai_service.py`, lines 104-141). The network call and the base64
encoding are abstracted into a `VisionReply`: either the call raised, or
it produced response text, which either fails `json.loads`, parses to a
non-list JSON value, or parses to a JSON array of items. -/

/-- One element of a parsed JSON array: either not a dict with a
`title` key (skipped by validation), or a book object. A title's JSON
value is modelled as the string `str(...)` coerces it to, and
`confidence` as the score `float(...)` coerces it to; a value on which
those coercions would raise is out of scope of the model. -/
inductive JsonBookItem where
  | invalid
  | book (title : String) (author : Option String) (confidence : Option Score)
      (position : Option String)
  deriving Repr, DecidableEq

/-- What `response.choices[0].message.content` parses to. -/
inductive VisionContent where
  | malformed (raw : String)
  | jsonNonList
  | jsonList (items : List JsonBookItem)
  deriving Repr, DecidableEq

/-- Outcome of the OpenAI chat-completion call. -/
inductive VisionReply where
  | raised (msg : String)
  | content (c : VisionContent)
  deriving Repr, DecidableEq

/-- The provider-level book dictionaries (`validated_book` in the source;
also the shape `GoogleVisionService.identify_books` returns). -/
structure ProviderBook where
  title : String
  author : Option String
  confidence : Option Score
  position : Option String
  deriving Repr, DecidableEq

/-- Python truthiness of `Option String` (`None` and `""` are falsy). -/
def optStrTruthy : Option String → Bool
  | none => false
  | some s => !(s.toList.isEmpty)

/-- Decidable equality of `Except` outcomes (for stating and evaluating
results of fallible operations). -/
instance {ε α : Type} [DecidableEq ε] [DecidableEq α] :
    DecidableEq (Except ε α) := fun a b =>
  match a, b with
  | .ok x, .ok y =>
    if h : x = y then .isTrue (by rw [h]) else .isFalse (by simp [h])
  | .error x, .error y =>
    if h : x = y then .isTrue (by rw [h]) else .isFalse (by simp [h])
  | .ok _, .error _ => .isFalse (by simp)
  | .error _, .ok _ => .isFalse (by simp)

/-- Python `str.strip()` at `String` level. -/
def pyStripS (s : String) : String := (pyStrip s.toList).asString

/-- The validation loop of `identify_books` (lines 117-129): keep the
first `maxBooks` items, skip non-dict/no-title items, strip fields,
replace falsy author/position by `None`, default confidence to 0.5, and
skip empty titles. -/
def validateBooks (items : List JsonBookItem) (maxBooks : Nat) : List ProviderBook :=
  (items.take maxBooks).filterMap fun it =>
    match it with
    | .invalid => none
    | .book title author confidence position =>
      let vb : ProviderBook :=
        { title := pyStripS title
          author := if optStrTruthy author then (author.map pyStripS) else none
          confidence := some (confidence.getD 50)
          position := if optStrTruthy position then (position.map pyStripS) else none }
      if vb.title.toList.isEmpty then none else some vb

/-- `identify_books` response handling: a raised call propagates
(`.error`); unparseable content returns `[]` (line 137); a non-list JSON
value returns `[]` (line 114); a list is validated and capped. -/
def identifyBooks (reply : VisionReply) (maxBooks : Nat) :
    Except String (List ProviderBook) :=
  match reply with
  | .raised msg => .error msg
  | .content (.malformed _) => .ok []
  | .content .jsonNonList => .ok []
  | .content (.jsonList items) => .ok (validateBooks items maxBooks)

/-! ### `scan_shelf` orchestration (`scan.py`, lines 93-174)
The part of the endpoint after session/image validation and upload
saving. The two service constructors run first (lines 94-95); a
constructor error is a plain exception, caught by the outer handler
(lines 164-174), which returns a structured failure response. Inside the
inner `try`, the OpenAI attempt runs when an API key is configured, the
Google attempt when the first failed, fallback is enabled, the service
object exists and a project is configured; if neither succeeded the
endpoint raises `HTTPException(500, ...)`, which the `except
HTTPException: raise` handlers re-raise to the caller. -/

/-- The configuration flags gating the providers (`settings`). -/
structure ScanConfig where
  openai_api_key : Option String
  google_cloud_project : Option String
  google_vision_available : Bool
  deriving Repr, DecidableEq

/-- Behaviour of one provider's `identify_books` for this request: the
list it would return, or the exception it would raise. -/
inductive ProviderResult where
  | ok (books : List ProviderBook)
  | raised (msg : String)
  deriving Repr, DecidableEq

/-- The `RecognizedBook` response schema (title, optional author,
confidence defaulted to 0.0, position). Pydantic validation constrains
`confidence` to [0, 1] and `position` to an optional dict — the
providers only ever produce string positions, so any non-`None` position
fails validation. -/
structure RecognizedBook where
  title : String
  author : Option String
  confidence : Score
  position : Option String
  deriving Repr, DecidableEq

/-- Pydantic validation of one `RecognizedBook` construction (lines
108-113): `confidence=book.get("confidence", 0.0)` must lie in [0, 1] and
`position=book.get("position")` must be `None` (a string is not a dict). -/
def recognizedBookOk (b : ProviderBook) : Bool :=
  (0 ≤ b.confidence.getD 0 && b.confidence.getD 0 ≤ 100) && b.position = none

/-- Building the `recognized_books` list (lines 107-114): every
construction is validated; the first failing one raises inside the
provider's `try`, so the whole attempt fails. -/
def buildRecognizedBooks (books : List ProviderBook) :
    Except String (List RecognizedBook) :=
  if books.all recognizedBookOk then
    .ok (books.map fun b => ⟨b.title, b.author, b.confidence.getD 0, b.position⟩)
  else .error "validation error for RecognizedBook"

/-- The `ShelfScanResponse` schema (`scan_id` and `processing_time` are
infrastructure values outside the model). -/
structure ShelfScanResponse where
  recognized_books : List RecognizedBook
  total_books_found : Nat
  api_used : String
  success : Bool
  error_message : Option String
  deriving Repr, DecidableEq

/-- What the endpoint does with a request: returns a response or raises
an `HTTPException status detail`. -/
inductive ScanOutcome where
  | response (r : ShelfScanResponse)
  | httpError (status : Nat) (detail : String)
  deriving Repr, DecidableEq

/-- Whether a `ScanOutcome` is a returned response (as opposed to a
raised `HTTPException`). -/
def ScanOutcome.isResponse : ScanOutcome → Bool
  | .response _ => true
  | .httpError _ _ => false

/-- The successful response (lines 150-160): `success` is true so
`error_message` is `None`. -/
def successResponse (apiUsed : String) (recs : List RecognizedBook) :
    ShelfScanResponse :=
  { recognized_books := recs, total_books_found := recs.length,
    api_used := apiUsed, success := true, error_message := none }

/-- The outer-handler failure response (lines 164-174). -/
def failResponse (msg : String) : ShelfScanResponse :=
  { recognized_books := [], total_books_found := 0, api_used := "none",
    success := false, error_message := some ("Scan failed: " ++ msg) }

/-- `GoogleVisionService.__init__` succeeds iff the package is importable
and a Google Cloud project is configured. -/
def googleConstructible (cfg : ScanConfig) : Bool :=
  cfg.google_vision_available && cfg.google_cloud_project.isSome

/-- The message of the exception `GoogleVisionService.__init__` raises
(the import check runs first). -/
def googleInitError (cfg : ScanConfig) : String :=
  if !cfg.google_vision_available then "google-cloud-vision package not installed"
  else "Google Cloud project not configured"

/-- Lines 123-143: the fallback attempt and the final `if not success:
raise`, reached with `success = False` and `error_message` as recorded by
the primary attempt. The Google service object exists iff `use_fallback`
(construction already succeeded), and line 123 also re-checks
`settings.GOOGLE_CLOUD_PROJECT`. -/
def attemptFallback (cfg : ScanConfig) (use_fallback : Bool)
    (error_message : Option String) (secondary : ProviderResult) : ScanOutcome :=
  if use_fallback && cfg.google_cloud_project.isSome then
    match secondary with
    | .ok books =>
      match buildRecognizedBooks books with
      | .ok recs => .response (successResponse "google" recs)
      | .error e => .httpError 500 ("Google Vision also failed: " ++ e)
    | .raised msg => .httpError 500 ("Google Vision also failed: " ++ msg)
  else .httpError 500 (error_message.getD "Both AI services failed")

/-- The inner `try` (lines 102-148): primary attempt, then fallback. A
primary failure with fallback disabled re-raises (line 120), which the
inner generic handler converts to `HTTPException(500, "AI processing
failed: ...")` (line 148). -/
def scanTryBlock (cfg : ScanConfig) (use_fallback : Bool)
    (primary secondary : ProviderResult) : ScanOutcome :=
  if cfg.openai_api_key.isSome then
    match primary with
    | .ok books =>
      match buildRecognizedBooks books with
      | .ok recs => .response (successResponse "openai" recs)
      | .error e =>
        if !use_fallback then .httpError 500 ("AI processing failed: " ++ e)
        else attemptFallback cfg use_fallback (some ("OpenAI failed: " ++ e)) secondary
    | .raised msg =>
      if !use_fallback then .httpError 500 ("AI processing failed: " ++ msg)
      else attemptFallback cfg use_fallback (some ("OpenAI failed: " ++ msg)) secondary
  else attemptFallback cfg use_fallback none secondary

/-- `scan_shelf` after session/image validation and upload saving:
service construction (an exception there reaches the outer handler and
yields a structured failure response), then the inner `try`. -/
def scanShelf (cfg : ScanConfig) (use_fallback : Bool)
    (primary secondary : ProviderResult) : ScanOutcome :=
  if cfg.openai_api_key.isNone then
    .response (failResponse "OpenAI API key not configured")
  else if use_fallback && !googleConstructible cfg then
    .response (failResponse (googleInitError cfg))
  else scanTryBlock cfg use_fallback primary secondary

/-! ### `_get_fallback_recommendations` (`recommend.py`, lines 228-295) -/

/-- Python substring test at `String` level (`pat in s`). -/
def pyContainsS (s pat : String) : Bool := containsSub s.toList pat.toList

/-- Python `str.lower()` as a character list (ASCII-faithful). -/
def lowerL (s : String) : List Char := s.toList.map Char.toLower

/-- The user preferences as the recommendation flow consumes them. The
stored `UserPreference.to_dict()` has further keys (disliked genres,
favorite authors, length, era, …), but the only key the fallback
generator and the persistence loop read is `favorite_genres`; the rest
only feed the primary generator's natural-language prompt, which is
abstracted into `GenResult`. -/
structure Preferences where
  favorite_genres : List String
  deriving Repr, DecidableEq

/-- One entry of the fixed fallback seed list (appeal scores in
hundredths: 0.8 ↦ 80). -/
structure SeedBook where
  title : String
  author : String
  reason : String
  appeal_score : Score
  genre : String
  publication_year : Nat
  deriving Repr, DecidableEq

/-- The `fallback_books` seed list (lines 231-272). -/
def fallbackBooks : List SeedBook :=
  [{ title := "The Seven Husbands of Evelyn Hugo", author := "Taylor Jenkins Reid",
     reason := "Popular contemporary fiction with compelling characters",
     appeal_score := 80, genre := "Contemporary Fiction", publication_year := 2017 },
   { title := "Educated", author := "Tara Westover",
     reason := "Critically acclaimed memoir about education and family",
     appeal_score := 90, genre := "Memoir", publication_year := 2018 },
   { title := "The Midnight Library", author := "Matt Haig",
     reason := "Thought-provoking fiction about life choices",
     appeal_score := 75, genre := "Literary Fiction", publication_year := 2020 },
   { title := "Atomic Habits", author := "James Clear",
     reason := "Popular self-improvement book about building good habits",
     appeal_score := 85, genre := "Self-Help", publication_year := 2018 },
   { title := "The Song of Achilles", author := "Madeline Miller",
     reason := "Beautifully written retelling of Greek mythology",
     appeal_score := 80, genre := "Historical Fiction", publication_year := 2011 }]

/-- The replacement single-entry list of lines 284-293 (its `reason`
differs from the first seed entry's). -/
def fallbackDefaultBook : SeedBook :=
  { title := "The Seven Husbands of Evelyn Hugo", author := "Taylor Jenkins Reid",
    reason := "Popular contemporary fiction",
    appeal_score := 80, genre := "Contemporary Fiction", publication_year := 2017 }

/-- The genre filter (lines 275-280): keep a seed book when some
lowercased favorite genre is a substring of its lowercased genre. -/
def genreMatches (favoriteGenres : List String) (b : SeedBook) : Bool :=
  (favoriteGenres.map lowerL).any fun g => containsSub (lowerL b.genre) g

/-- `_get_fallback_recommendations`: filter by favorite genres when that
preference is truthy (nonempty), replace an empty result by the single
default entry, truncate to `maxRecommendations`. -/
def getFallbackRecommendations (preferences : Preferences)
    (maxRecommendations : Nat) : List SeedBook :=
  let books := fallbackBooks
  let books :=
    if !preferences.favorite_genres.isEmpty then
      books.filter (genreMatches preferences.favorite_genres)
    else books
  let books := if books.isEmpty then [fallbackDefaultBook] else books
  books.take maxRecommendations

/-! ### `OpenAIVisionService.get_book_recommendations` response handling
(`openai_service.py`, lines 201-209) and `generate_recommendations`
(`recommend.py`, lines 69-131). -/

/-- One element of the generator's parsed JSON array as
`generate_recommendations` reads it; a `title` key is presumed present
(an element without one would raise `KeyError` at line 84, outside the
claims' scope). -/
structure AIRec where
  title : String
  author : Option String
  reason : Option String
  similarity_to : Option String
  appeal_score : Option Score
  genre : Option String
  publication_year : Option Nat
  deriving Repr, DecidableEq

/-- What the recommendation model's response text parses to. -/
inductive GenContent where
  | malformed (raw : String)
  | jsonList (recs : List AIRec)
  deriving Repr, DecidableEq

/-- Outcome of the recommendation chat-completion call. -/
inductive GenResult where
  | raised (msg : String)
  | content (c : GenContent)
  deriving Repr, DecidableEq

/-- `get_book_recommendations` response handling: a raised call
propagates (line 213 re-raises); unparseable JSON returns `[]` (line
209); a parsed list is truncated to `max_recommendations` with no
validation (line 206). -/
def getBookRecommendations (reply : GenResult) (maxRecommendations : Nat) :
    Except String (List AIRec) :=
  match reply with
  | .raised msg => .error msg
  | .content (.malformed _) => .ok []
  | .content (.jsonList recs) => .ok (recs.take maxRecommendations)

/-- The fallback seed entries as the dicts the endpoint loop consumes
(`_get_fallback_recommendations` returns dicts with these keys and no
`similarity_to`). -/
def seedToAIRec (b : SeedBook) : AIRec :=
  { title := b.title, author := some b.author, reason := some b.reason,
    similarity_to := none, appeal_score := some b.appeal_score,
    genre := some b.genre, publication_year := some b.publication_year }

/-- The `ai_recommendations` list of lines 69-77: the fallback runs only
when `get_book_recommendations` raises. -/
def aiRecommendations (preferences : Preferences) (reply : GenResult)
    (maxRecommendations : Nat) : List AIRec :=
  match getBookRecommendations reply maxRecommendations with
  | .error _ => (getFallbackRecommendations preferences maxRecommendations).map seedToAIRec
  | .ok recs => recs

/-- SQLAlchemy: a mapped class declares `id` as a `Column`, so the
instrumented attribute exists on every instance and
`hasattr(recommendation, 'id')` is true; its value is `None` until the
row is first flushed, and the response entry is built before any flush
of the recommendation row. -/
def recommendationHasIdAttr : Bool := true

/-- Python `str(...)` of the optional (UUID) primary key. -/
def pyStrOfOptId : Option Nat → String
  | none => "None"
  | some n => toString n

/-- The argument tuple the endpoint passes to the
`BookRecommendationResponse(...)` construction (lines 113-122). The
nested book payload is identified by its title (the row is found or
created by exact title match); `recommendation.created_at` is `None`
before the flush, so `recommendation.created_at or "pending"` is the
literal string `"pending"`; `recommendation.is_saved` is likewise `None`
before the flush (the column default applies at INSERT time). -/
structure RecResponseEntry where
  id : String
  bookTitle : String
  reason : String
  score : Score
  source_books : List String
  recommendation_type : String
  is_saved : Option Bool
  created_at : String
  deriving Repr, DecidableEq

/-- One iteration's argument tuple (lines 113-122): `recommendation.id`
is `None` (unflushed) and `hasattr` is true, so `id` is
`str(None) = "None"`, never `"pending"`; `recommendation_type` is the
literal `"ai"` (line 109). -/
def buildEntry (aiRec : AIRec) : RecResponseEntry :=
  { id := if recommendationHasIdAttr then pyStrOfOptId none else "pending"
    bookTitle := aiRec.title
    reason := aiRec.reason.getD "AI recommended based on your preferences"
    score := aiRec.appeal_score.getD 50
    source_books :=
      if optStrTruthy aiRec.similarity_to then [aiRec.similarity_to.getD ""] else []
    recommendation_type := "ai"
    is_saved := none
    created_at := "pending" }

/-- Pydantic validation performed by the `BookRecommendationResponse(...)`
construction (schemas/book.py:36-48): `is_saved : bool` rejects `None`,
`created_at : datetime` rejects the unparseable string `"pending"` (a
real timestamp would arrive as a datetime value, not that literal), and
`score` is constrained to [0, 1]. The loop only ever passes
`is_saved = None` and `created_at = "pending"`, so every construction it
attempts fails and raises `ValidationError`. -/
def recResponseValidationOk (e : RecResponseEntry) : Bool :=
  (match e.is_saved with | some _ => true | none => false) &&
  e.created_at != "pending" &&
  (0 ≤ e.score && e.score ≤ 100)

/-- The persistence/response loop (lines 80-122): one
`BookRecommendationResponse` construction per `ai_rec`, in order; the
first construction failing pydantic validation raises, aborting the loop
(the generic handler at lines 136-137 turns it into an HTTP 500). -/
def buildEntries : List AIRec → Except String (List RecResponseEntry)
  | [] => .ok []
  | aiRec :: rest =>
    let e := buildEntry aiRec
    if recResponseValidationOk e then
      match buildEntries rest with
      | .ok es => .ok (e :: es)
      | .error msg => .error msg
    else .error "validation error for BookRecommendationResponse"

/-- The post-commit patch-up loop (lines 127-130): every entry whose
`id` equals `"pending"` is rewritten to the string form of the leaked
loop variable's id — `lastDbId`, the database id of the *last* created
row, refreshed after commit. -/
def patchUp (entries : List RecResponseEntry) (lastDbId : String) :
    List RecResponseEntry :=
  entries.map fun e => if e.id = "pending" then { e with id := lastDbId } else e

/-- What the endpoint does with a request: returns the entry list or
raises an `HTTPException status detail`. -/
inductive RecommendOutcome where
  | response (entries : List RecResponseEntry)
  | httpError (status : Nat) (detail : String)
  deriving Repr, DecidableEq

/-- `generate_recommendations` after session/preference lookup: generate
(with fallback on a raised call), build the response entries — an
exception during any construction reaches the generic handler at lines
136-137 and becomes `HTTPException(500, "Error generating
recommendations: ...")` — then commit, patch up pending ids, return. -/
def generateRecommendations (preferences : Preferences) (reply : GenResult)
    (maxRecommendations : Nat) (lastDbId : String) : RecommendOutcome :=
  match buildEntries (aiRecommendations preferences reply maxRecommendations) with
  | .ok entries => .response (patchUp entries lastDbId)
  | .error msg => .httpError 500 ("Error generating recommendations: " ++ msg)

/-! ### Helper lemmas -/

theorem str_append_ne_empty (a m : String) (ha : a.length ≠ 0) : a ++ m ≠ "" := by
  intro h
  have h2 := congrArg String.length h
  rw [String.length_append] at h2
  have h3 : ("" : String).length = 0 := rfl
  omega

theorem buildEntry_invalid (r : AIRec) :
    recResponseValidationOk (buildEntry r) = false := rfl

theorem buildEntries_ok_nil {l : List AIRec} {es : List RecResponseEntry}
    (h : buildEntries l = .ok es) : es = [] := by
  cases l with
  | nil => cases h; rfl
  | cons r rest => cases h

theorem getFallback_shape (preferences : Preferences) (n : Nat) :
    ∃ B : List SeedBook, getFallbackRecommendations preferences n = B.take n ∧ B ≠ [] := by
  unfold getFallbackRecommendations
  set B1 := if !preferences.favorite_genres.isEmpty then
      fallbackBooks.filter (genreMatches preferences.favorite_genres)
    else fallbackBooks with hB1
  refine ⟨if B1.isEmpty then [fallbackDefaultBook] else B1, rfl, ?_⟩
  by_cases h : B1.isEmpty
  · simp [h]
  · rw [if_neg h]
    intro hnil
    exact h (by simp [hnil])

theorem isEmpty_false_of_ne_nil {α : Type} {l : List α} (h : l ≠ []) :
    l.isEmpty = false := by
  cases l with
  | nil => exact absurd rfl h
  | cons a t => rfl

theorem getFallback_eq_of_nil (preferences : Preferences) (n : Nat)
    (h : preferences.favorite_genres = []) :
    getFallbackRecommendations preferences n = fallbackBooks.take n := by
  unfold getFallbackRecommendations
  rw [h]
  rfl

theorem getFallback_eq_of_ne_nil (preferences : Preferences) (n : Nat)
    (h : preferences.favorite_genres ≠ []) :
    getFallbackRecommendations preferences n =
      (if (fallbackBooks.filter (genreMatches preferences.favorite_genres)).isEmpty
       then [fallbackDefaultBook]
       else fallbackBooks.filter (genreMatches preferences.favorite_genres)).take n := by
  unfold getFallbackRecommendations
  rw [isEmpty_false_of_ne_nil h]
  rfl

theorem getFallback_cases (preferences : Preferences) (n : Nat) :
    (preferences.favorite_genres = [] ∧
      getFallbackRecommendations preferences n = fallbackBooks.take n) ∨
    (preferences.favorite_genres ≠ [] ∧
      (fallbackBooks.filter (genreMatches preferences.favorite_genres)).isEmpty = true ∧
      getFallbackRecommendations preferences n = [fallbackDefaultBook].take n) ∨
    (preferences.favorite_genres ≠ [] ∧
      (fallbackBooks.filter (genreMatches preferences.favorite_genres)).isEmpty = false ∧
      getFallbackRecommendations preferences n =
        (fallbackBooks.filter (genreMatches preferences.favorite_genres)).take n) := by
  by_cases h1 : preferences.favorite_genres = []
  · exact .inl ⟨h1, getFallback_eq_of_nil preferences n h1⟩
  · right
    cases h2 : (fallbackBooks.filter (genreMatches preferences.favorite_genres)).isEmpty
    · exact .inr ⟨h1, rfl,
        by rw [getFallback_eq_of_ne_nil preferences n h1, if_neg (by simp [h2])]⟩
    · exact .inl ⟨h1, rfl,
        by rw [getFallback_eq_of_ne_nil preferences n h1, if_pos h2]⟩

theorem getFallback_len (preferences : Preferences) (n : Nat) (hn : 1 ≤ n) :
    1 ≤ (getFallbackRecommendations preferences n).length ∧
      (getFallbackRecommendations preferences n).length ≤ n := by
  obtain ⟨B, hB, hne⟩ := getFallback_shape preferences n
  rw [hB, List.length_take]
  have : 1 ≤ B.length := by
    cases B with
    | nil => exact absurd rfl hne
    | cons a l => simp
  omega

/-! ### Claim theorems -/

/-- C4 counterexample: a multimodal response whose content is not
JSON-parseable makes `identify_books` return a *successful* empty list,
not a provider error, refuting the claim that a parse failure is
signalled as a failure and never silently converted into a successful
empty candidate list. -/
theorem c4_parse_failure_is_ok_empty :
    identifyBooks (.content (.malformed "Here are the books I can see: ...")) 20 =
      .ok [] := rfl

/-- C4 (amended): on a JSON parse failure — and likewise on a JSON value
that is not a list — `identify_books` returns an empty candidate list as
a success value; only exceptions outside the JSON-parsing block (e.g.
transport errors) propagate as failures. -/
theorem c4_parse_failure_never_error (raw msg : String) (n : Nat) :
    identifyBooks (.content (.malformed raw)) n = .ok [] ∧
    identifyBooks (.content .jsonNonList) n = .ok [] ∧
    identifyBooks (.raised msg) n = .error msg :=
  ⟨rfl, rfl, rfl⟩

/-- C5: when neither provider is configured, the `OpenAIVisionService`
constructor raises, the outer handler catches it, and the scan returns a
structured failure response: `success = false`, no candidates,
`api_used = "none"`, and a non-empty error message — without raising. -/
theorem c5_no_provider_configured_failure_response (cfg : ScanConfig)
    (use_fallback : Bool) (primary secondary : ProviderResult)
    (h1 : cfg.openai_api_key = none) (_h2 : cfg.google_cloud_project = none) :
    scanShelf cfg use_fallback primary secondary =
      .response
        { recognized_books := [], total_books_found := 0, api_used := "none",
          success := false,
          error_message := some "Scan failed: OpenAI API key not configured" } ∧
    (scanShelf cfg use_fallback primary secondary).isResponse = true ∧
    "Scan failed: OpenAI API key not configured" ≠ "" := by
  have hr : scanShelf cfg use_fallback primary secondary =
      .response (failResponse "OpenAI API key not configured") := by
    simp [scanShelf, h1]
  refine ⟨by rw [hr]; rfl, by rw [hr]; rfl, by decide⟩

/-- C5 witness. -/
theorem c5_no_provider_configured_failure_response_witness :
    scanShelf ⟨none, none, true⟩ true (.raised "x") (.raised "y") =
      .response
        { recognized_books := [], total_books_found := 0, api_used := "none",
          success := false,
          error_message := some "Scan failed: OpenAI API key not configured" } ∧
    (scanShelf ⟨none, none, true⟩ true (.raised "x") (.raised "y")).isResponse = true ∧
    "Scan failed: OpenAI API key not configured" ≠ "" :=
  c5_no_provider_configured_failure_response ⟨none, none, true⟩ true
    (.raised "x") (.raised "y") rfl rfl

/-- C2 counterexample: with both providers configured and both failing,
`scan_shelf` raises `HTTPException(500, "Google Vision also failed:
...")` instead of returning a structured `ScanResult`, refuting the
claim that a double provider failure never raises to the caller. -/
theorem c2_both_providers_fail_raises :
    scanShelf ⟨some "k", some "p", true⟩ true (.raised "primary down")
        (.raised "vision down") =
      .httpError 500 "Google Vision also failed: vision down" ∧
    (scanShelf ⟨some "k", some "p", true⟩ true (.raised "primary down")
        (.raised "vision down")).isResponse = false := by
  constructor <;> rfl

/-- C2 (amended): when both providers are attempted and both fail, the
scan raises an HTTP 500 error whose non-empty detail is the fallback
provider's error message; the structured failure response is produced
only by the outer handler for exceptions outside the provider-attempt
block (such as service-construction failures). -/
theorem c2_both_fail_http_500 (cfg : ScanConfig) (m1 m2 : String)
    (hkey : cfg.openai_api_key.isSome = true)
    (hg : googleConstructible cfg = true) :
    scanShelf cfg true (.raised m1) (.raised m2) =
      .httpError 500 ("Google Vision also failed: " ++ m2) ∧
    ("Google Vision also failed: " : String) ++ m2 ≠ "" := by
  obtain ⟨k, hk⟩ := Option.isSome_iff_exists.mp hkey
  have hproj : cfg.google_cloud_project.isSome = true := by
    unfold googleConstructible at hg
    exact (Bool.and_eq_true _ _ |>.mp hg).2
  obtain ⟨p, hp⟩ := Option.isSome_iff_exists.mp hproj
  constructor
  · simp [scanShelf, scanTryBlock, attemptFallback, hk, hp, hg]
  · exact str_append_ne_empty _ m2 (by decide)

/-- C2 witness. -/
theorem c2_both_fail_http_500_witness :
    scanShelf ⟨some "k", some "p", true⟩ true (.raised "a") (.raised "b") =
      .httpError 500 ("Google Vision also failed: " ++ "b") ∧
    ("Google Vision also failed: " : String) ++ "b" ≠ "" :=
  c2_both_fail_http_500 ⟨some "k", some "p", true⟩ "a" "b" rfl rfl

/-- C3 counterexample: the Google service is constructed eagerly
(line 95) before any provider call; with the primary configured and its
behaviour a success, but fallback enabled and the Google project not
configured, the constructor raises and the scan returns a failure
response (`success = false`, `api_used = "none"`) without the primary's
candidates — refuting "regardless of whether the secondary provider is
configured or constructible". -/
theorem c3_unconstructible_fallback_blocks_primary :
    scanShelf ⟨some "k", none, true⟩ true
        (.ok [⟨"1984", some "George Orwell", some 90, none⟩]) (.raised "never") =
      .response (failResponse "Google Cloud project not configured") ∧
    (failResponse "Google Cloud project not configured").success = false ∧
    (failResponse "Google Cloud project not configured").api_used = "none" ∧
    (failResponse "Google Cloud project not configured").recognized_books = [] := by
  refine ⟨rfl, rfl, rfl, rfl⟩

/-- C3 (amended): when the primary provider is configured and its
`identify_books` call succeeds with books passing response validation
(confidence within bounds, no position payload), and service
initialization succeeds (the Google service is constructible whenever
fallback is enabled), the scan succeeds with `api_used = "openai"` and
exactly the primary's candidates; the secondary's behaviour is
irrelevant (it is never invoked). -/
theorem c3_primary_success_openai (cfg : ScanConfig) (use_fallback : Bool)
    (books : List ProviderBook) (secondary : ProviderResult)
    (hkey : cfg.openai_api_key.isSome = true)
    (hg : use_fallback = true → googleConstructible cfg = true)
    (hvalid : ∀ b ∈ books, recognizedBookOk b = true) :
    scanShelf cfg use_fallback (.ok books) secondary =
      .response (successResponse "openai"
        (books.map fun b => ⟨b.title, b.author, b.confidence.getD 0, b.position⟩)) := by
  obtain ⟨k, hk⟩ := Option.isSome_iff_exists.mp hkey
  have hbuild : buildRecognizedBooks books =
      .ok (books.map fun b => ⟨b.title, b.author, b.confidence.getD 0, b.position⟩) := by
    unfold buildRecognizedBooks
    rw [if_pos (List.all_eq_true.mpr hvalid)]
  cases use_fallback with
  | false => simp [scanShelf, scanTryBlock, hk, hbuild]
  | true => simp [scanShelf, scanTryBlock, hk, hbuild, hg rfl]

/-- C3 witness. -/
theorem c3_primary_success_openai_witness :
    scanShelf ⟨some "k", some "p", true⟩ true
        (.ok [⟨"1984", some "George Orwell", some 90, none⟩]) (.raised "bang") =
      .response (successResponse "openai"
        ([⟨"1984", some "George Orwell", some 90, none⟩].map
          fun b : ProviderBook => ⟨b.title, b.author, b.confidence.getD 0, b.position⟩)) :=
  c3_primary_success_openai ⟨some "k", some "p", true⟩ true
    [⟨"1984", some "George Orwell", some 90, none⟩] (.raised "bang")
    rfl (fun _ => rfl) (by decide)

/-- C10 counterexample: at a concrete input where the generator does
produce entries (primary raised → two fallback entries), the endpoint
raises HTTP 500 at the first `BookRecommendationResponse` construction
(pydantic rejects `is_saved=None` and `created_at="pending"`) instead of
constructing and returning entries with unpatched ids — the returned
entries the claim describes never exist. -/
theorem c10_entries_never_returned :
    generateRecommendations ⟨[]⟩ (.raised "generator down") 2 "7" =
      .httpError 500 ("Error generating recommendations: " ++
        "validation error for BookRecommendationResponse") ∧
    recResponseValidationOk (buildEntry (seedToAIRec fallbackDefaultBook)) = false :=
  ⟨rfl, rfl⟩

/-- C10 (amended): the `id` argument of every attempted response-entry
construction is `str(None) = "None"` — never the sentinel `"pending"` —
because a recommendation object always carries an `id` attribute and the
entry is built before its row is flushed; but every such construction
fails pydantic validation (`is_saved=None` for a required bool,
`created_at="pending"` for a datetime), so any non-empty batch raises
HTTP 500 before commit. Entries are therefore returned only when the
batch is empty: the post-commit patch-up loop never updates any entry,
and no returned entry ever carries a database-assigned id. -/
theorem c10_pending_patchup_never_fires (preferences : Preferences)
    (reply : GenResult) (n : Nat) (lastDbId : String) :
    (∀ r : AIRec, (buildEntry r).id = "None" ∧ (buildEntry r).id ≠ "pending") ∧
    (∀ r : AIRec, recResponseValidationOk (buildEntry r) = false) ∧
    ∀ entries, generateRecommendations preferences reply n lastDbId =
      .response entries → entries = [] ∧ patchUp entries lastDbId = entries := by
  refine ⟨fun r => ⟨rfl, by show "None" ≠ "pending"; decide⟩, fun r => rfl, ?_⟩
  intro entries he
  unfold generateRecommendations at he
  cases hb : buildEntries (aiRecommendations preferences reply n) with
  | ok es =>
    rw [hb] at he
    have hes : es = [] := buildEntries_ok_nil hb
    subst hes
    cases he
    exact ⟨rfl, rfl⟩
  | error e =>
    rw [hb] at he
    cases he

/-- C10 witness. -/
theorem c10_pending_patchup_never_fires_witness :
    ((buildEntry (seedToAIRec fallbackDefaultBook)).id = "None" ∧
      (buildEntry (seedToAIRec fallbackDefaultBook)).id ≠ "pending") ∧
    recResponseValidationOk (buildEntry (seedToAIRec fallbackDefaultBook)) = false ∧
    (([] : List RecResponseEntry) = [] ∧ patchUp [] "7" = ([] : List RecResponseEntry)) := by
  obtain ⟨h1, h2, h3⟩ :=
    c10_pending_patchup_never_fires ⟨[]⟩ (.content (.malformed "oops")) 2 "7"
  exact ⟨h1 _, h2 _, h3 [] rfl⟩

/-- C1 counterexample: when the primary generator returns malformed
(non-JSON) text, `get_book_recommendations` returns an empty list
*without raising*, so the rule-based fallback is not invoked and
`generate_recommendations` returns zero recommendations; and when the
primary *does* raise, the endpoint raises HTTP 500 at the first
response-entry construction instead of returning 1..N recommendations.
Both refute the claim that every call returns between 1 and N
recommendations and never an error for a generator-level failure. -/
theorem c1_malformed_text_yields_no_recommendations :
    generateRecommendations ⟨[]⟩ (.content (.malformed "I cannot see any books")) 3 "1" =
      .response [] ∧
    generateRecommendations ⟨[]⟩ (.raised "provider down") 3 "1" =
      .httpError 500 ("Error generating recommendations: " ++
        "validation error for BookRecommendationResponse") :=
  ⟨rfl, rfl⟩

/-- C1 (amended): the rule-based fallback generator is invoked only when
the primary generator *raises*; it then yields between 1 and N
seed-derived entries whose would-be response rows are all typed `"ai"`
(the literal at line 109), never `"rule_based"` — but the endpoint
raises HTTP 500 at the first `BookRecommendationResponse` construction
(pydantic rejects `is_saved=None` and `created_at="pending"`), so no
recommendations are returned on that path; when the primary returns
malformed non-JSON text, the primary call returns an empty list, the
fallback is not invoked, and the endpoint returns zero
recommendations. -/
theorem c1_fallback_on_raise_only (preferences : Preferences) (n : Nat)
    (msg lastDbId : String) (hn : 1 ≤ n) :
    (aiRecommendations preferences (.raised msg) n =
        (getFallbackRecommendations preferences n).map seedToAIRec ∧
      1 ≤ (aiRecommendations preferences (.raised msg) n).length ∧
      (aiRecommendations preferences (.raised msg) n).length ≤ n ∧
      ∀ r ∈ aiRecommendations preferences (.raised msg) n,
        (buildEntry r).recommendation_type = "ai") ∧
    generateRecommendations preferences (.raised msg) n lastDbId =
      .httpError 500 ("Error generating recommendations: " ++
        "validation error for BookRecommendationResponse") ∧
    ∀ raw, generateRecommendations preferences (.content (.malformed raw)) n lastDbId =
      .response [] := by
  have hai : aiRecommendations preferences (.raised msg) n =
      (getFallbackRecommendations preferences n).map seedToAIRec := rfl
  obtain ⟨hlo, hhi⟩ := getFallback_len preferences n hn
  have hlen : (aiRecommendations preferences (.raised msg) n).length =
      (getFallbackRecommendations preferences n).length := by
    rw [hai, List.length_map]
  refine ⟨⟨hai, by omega, by omega, fun r _ => rfl⟩, ?_, fun raw => rfl⟩
  cases h : aiRecommendations preferences (.raised msg) n with
  | nil =>
    rw [h] at hlen
    simp at hlen
    omega
  | cons r rest =>
    unfold generateRecommendations
    rw [h]
    rfl

/-- C1 witness. -/
theorem c1_fallback_on_raise_only_witness :
    (aiRecommendations ⟨[]⟩ (.raised "boom") 3 =
        (getFallbackRecommendations ⟨[]⟩ 3).map seedToAIRec ∧
      1 ≤ (aiRecommendations ⟨[]⟩ (.raised "boom") 3).length ∧
      (aiRecommendations ⟨[]⟩ (.raised "boom") 3).length ≤ 3 ∧
      ∀ r ∈ aiRecommendations ⟨[]⟩ (.raised "boom") 3,
        (buildEntry r).recommendation_type = "ai") ∧
    generateRecommendations ⟨[]⟩ (.raised "boom") 3 "1" =
      .httpError 500 ("Error generating recommendations: " ++
        "validation error for BookRecommendationResponse") ∧
    ∀ raw, generateRecommendations ⟨[]⟩ (.content (.malformed raw)) 3 "1" =
      .response [] :=
  c1_fallback_on_raise_only ⟨[]⟩ 3 "boom" "1" (by decide)

/-- C6 counterexample: with favorite genre "Science Fiction" (matching no
seed entry) and N = 3, the result is the single default entry, which is
*not* an element of the seed list and differs from the first seed entry
(its `reason` is abbreviated) — refuting "entries taken from the fixed
seed list" / "the result is the single first seed entry". -/
theorem c6_no_match_default_not_seed_entry :
    getFallbackRecommendations ⟨["Science Fiction"]⟩ 3 = [fallbackDefaultBook] ∧
    fallbackBooks.contains fallbackDefaultBook = false ∧
    fallbackBooks.head? ≠ some fallbackDefaultBook := by
  refine ⟨by decide, by decide, by decide⟩

/-- C6 (amended): for every preferences value and requested count N ≥ 1
the fallback generator returns between 1 and N entries whose titles form
a subsequence of the seed titles in seed order; with non-empty favorite
genres either every returned entry matches a favorite genre (substring,
case-insensitive) or the result is the single default entry (equal to
the first seed entry except for an abbreviated reason); with
favorite_genres = ["Memoir"] and N = 3 the result includes the seed
entry titled "Educated" and has at most 3 entries. -/
theorem c6_fallback_bounds_and_filter (preferences : Preferences) (n : Nat)
    (hn : 1 ≤ n) :
    (1 ≤ (getFallbackRecommendations preferences n).length ∧
     (getFallbackRecommendations preferences n).length ≤ n) ∧
    ((getFallbackRecommendations preferences n).map SeedBook.title).Sublist
      (fallbackBooks.map SeedBook.title) ∧
    (preferences.favorite_genres ≠ [] →
      (∀ b ∈ getFallbackRecommendations preferences n,
        genreMatches preferences.favorite_genres b = true) ∨
      getFallbackRecommendations preferences n = [fallbackDefaultBook]) ∧
    ("Educated" ∈ (getFallbackRecommendations ⟨["Memoir"]⟩ 3).map SeedBook.title ∧
     (getFallbackRecommendations ⟨["Memoir"]⟩ 3).length ≤ 3) := by
  refine ⟨getFallback_len preferences n hn, ?_, ?_, by decide, by decide⟩
  · rcases getFallback_cases preferences n with ⟨_, h⟩ | ⟨_, _, h⟩ | ⟨_, _, h⟩
    · rw [h, List.map_take]
      exact List.take_sublist _ _
    · rw [h, List.map_take]
      exact (List.take_sublist _ _).trans
        (by decide :
          ([fallbackDefaultBook].map SeedBook.title).Sublist
            (fallbackBooks.map SeedBook.title))
    · rw [h, List.map_take]
      exact (List.take_sublist _ _).trans
        ((List.filter_sublist fallbackBooks).map SeedBook.title)
  · intro hfav
    rcases getFallback_cases preferences n with ⟨hf, _⟩ | ⟨_, _, h⟩ | ⟨_, _, h⟩
    · exact absurd hf hfav
    · right
      rw [h]
      have hn' : n = (n - 1) + 1 := by omega
      rw [hn', List.take_succ_cons, List.take_nil]
    · left
      rw [h]
      intro b hb
      have hb' : b ∈ fallbackBooks.filter (genreMatches preferences.favorite_genres) :=
        (List.take_sublist _ _).mem hb
      exact List.of_mem_filter hb'

/-- C6 witness. -/
theorem c6_fallback_bounds_and_filter_witness :
    (1 ≤ (getFallbackRecommendations ⟨["Memoir"]⟩ 3).length ∧
     (getFallbackRecommendations ⟨["Memoir"]⟩ 3).length ≤ 3) ∧
    ((getFallbackRecommendations ⟨["Memoir"]⟩ 3).map SeedBook.title).Sublist
      (fallbackBooks.map SeedBook.title) ∧
    ((⟨["Memoir"]⟩ : Preferences).favorite_genres ≠ [] →
      (∀ b ∈ getFallbackRecommendations ⟨["Memoir"]⟩ 3,
        genreMatches (⟨["Memoir"]⟩ : Preferences).favorite_genres b = true) ∨
      getFallbackRecommendations ⟨["Memoir"]⟩ 3 = [fallbackDefaultBook]) ∧
    ("Educated" ∈ (getFallbackRecommendations ⟨["Memoir"]⟩ 3).map SeedBook.title ∧
     (getFallbackRecommendations ⟨["Memoir"]⟩ 3).length ≤ 3) :=
  c6_fallback_bounds_and_filter ⟨["Memoir"]⟩ 3 (by decide)

/-- C8 (code bug): the catalog-code regex `^[A-Z]{2,4}\d+` is searched
against `text.lower()`, which contains no ASCII uppercase letters, so a
catalog-code line such as "AB123" is *not* discarded and becomes a
candidate — yet the same line matches the pattern before lowercasing,
and the other metadata heuristics (pure digits, years, prices,
keywords) do fire as claimed. -/
theorem c8_catalog_code_not_discarded :
    isLikelyMetadata "AB123".toList = false ∧
    extractBooksFromText ["AB123"] 20 = [⟨"AB123".toList, none, 40, none⟩] ∧
    catalogCode "AB123".toList = true ∧
    catalogCode ("AB123".toList.map Char.toLower) = false ∧
    isLikelyMetadata "12345".toList = true ∧
    isLikelyMetadata "1984".toList = true ∧
    isLikelyMetadata "$12.99".toList = true ∧
    isLikelyMetadata "ISBN 978-0-452-28423-4".toList = true ∧
    isLikelyMetadata "Copyright 1949".toList = true ∧
    isLikelyMetadata "Second Edition".toList = true ∧
    isLikelyMetadata "Published 2001".toList = true ∧
    isLikelyMetadata "328 pages".toList = true ∧
    isLikelyMetadata "barcode".toList = true := by
  refine ⟨by decide, by decide, by decide, by decide, by decide, by decide, by decide,
    by decide, by decide, by decide, by decide, by decide, by decide⟩

/-! ### Structural lemmas about text normalization (for C7 and C9) -/

theorem bool_eq_false {b : Bool} (h : ¬ b = true) : b = false := by
  cases b
  · rfl
  · exact absurd rfl h

theorem splitWsAux_good (l : List Char) :
    ∀ acc : List Char, (∀ c ∈ acc, c.isWhitespace = false) →
      ∀ w ∈ splitWsAux l acc, w ≠ [] ∧ ∀ c ∈ w, c.isWhitespace = false := by
  induction l with
  | nil =>
    intro acc hacc w hw
    simp only [splitWsAux] at hw
    by_cases h : acc.isEmpty
    · rw [if_pos h] at hw
      simp at hw
    · rw [if_neg h] at hw
      rw [List.mem_singleton] at hw
      subst hw
      refine ⟨?_, fun c hc => hacc c (List.mem_reverse.mp hc)⟩
      intro hrev
      rw [List.reverse_eq_nil_iff] at hrev
      exact h (by simp [hrev])
  | cons c cs ih =>
    intro acc hacc w hw
    simp only [splitWsAux] at hw
    by_cases h : c.isWhitespace
    · rw [if_pos h] at hw
      by_cases h2 : acc.isEmpty
      · rw [if_pos h2] at hw
        exact ih [] (by simp) w hw
      · rw [if_neg h2] at hw
        rcases List.mem_cons.mp hw with rfl | hw2
        · refine ⟨?_, fun d hd => hacc d (List.mem_reverse.mp hd)⟩
          intro hrev
          rw [List.reverse_eq_nil_iff] at hrev
          exact h2 (by simp [hrev])
        · exact ih [] (by simp) w hw2
    · rw [if_neg h] at hw
      refine ih (c :: acc) ?_ w hw
      intro d hd
      rcases List.mem_cons.mp hd with rfl | hd2
      · exact bool_eq_false h
      · exact hacc d hd2

theorem splitWs_good (l : List Char) :
    ∀ w ∈ splitWs l, w ≠ [] ∧ ∀ c ∈ w, c.isWhitespace = false :=
  splitWsAux_good l [] (by simp)

theorem joinSpace_cons (w : List Char) (rest : List (List Char)) :
    joinSpace (w :: rest) =
      w ++ (if rest.isEmpty then [] else ' ' :: joinSpace rest) := by
  cases rest with
  | nil => simp [joinSpace]
  | cons r rs => rfl

theorem joinSpace_head_nonws (ws : List (List Char))
    (hgood : ∀ w ∈ ws, w ≠ [] ∧ ∀ c ∈ w, c.isWhitespace = false) (hne : ws ≠ []) :
    ∃ c t, joinSpace ws = c :: t ∧ c.isWhitespace = false := by
  cases ws with
  | nil => exact absurd rfl hne
  | cons w rest =>
    obtain ⟨hw, hchars⟩ := hgood w (by simp)
    cases w with
    | nil => exact absurd rfl hw
    | cons c w' =>
      refine ⟨c, w' ++ (if rest.isEmpty then [] else ' ' :: joinSpace rest), ?_,
        hchars c (by simp)⟩
      rw [joinSpace_cons]
      rfl

theorem joinSpace_reverse_head_nonws (ws : List (List Char))
    (hgood : ∀ w ∈ ws, w ≠ [] ∧ ∀ c ∈ w, c.isWhitespace = false) (hne : ws ≠ []) :
    ∃ c t, (joinSpace ws).reverse = c :: t ∧ c.isWhitespace = false := by
  induction ws with
  | nil => exact absurd rfl hne
  | cons w rest ih =>
    cases rest with
    | nil =>
      obtain ⟨hw, hchars⟩ := hgood w (by simp)
      cases hrev : w.reverse with
      | nil => exact absurd (List.reverse_eq_nil_iff.mp hrev) hw
      | cons c t =>
        have hc : c ∈ w := List.mem_reverse.mp (by rw [hrev]; simp)
        refine ⟨c, t, ?_, hchars c hc⟩
        show (joinSpace [w]).reverse = c :: t
        rw [show joinSpace [w] = w from rfl, hrev]
    | cons r rs =>
      obtain ⟨c, t, hct, hcws⟩ :=
        ih (fun x hx => hgood x (by simp [hx])) (by simp)
      refine ⟨c, t ++ ' ' :: w.reverse, ?_, hcws⟩
      show (joinSpace (w :: r :: rs)).reverse = _
      rw [show joinSpace (w :: r :: rs) = w ++ ' ' :: joinSpace (r :: rs) from rfl]
      rw [List.reverse_append, List.reverse_cons, hct]
      simp

theorem pyStrip_joinSpace (ws : List (List Char))
    (hgood : ∀ w ∈ ws, w ≠ [] ∧ ∀ c ∈ w, c.isWhitespace = false) :
    pyStrip (joinSpace ws) = joinSpace ws := by
  cases hws : ws with
  | nil => rfl
  | cons w rest =>
    subst hws
    obtain ⟨c, t, hct, hcws⟩ := joinSpace_head_nonws _ hgood (by simp)
    obtain ⟨d, u, hdu, hdws⟩ := joinSpace_reverse_head_nonws _ hgood (by simp)
    have h1 : (joinSpace (w :: rest)).dropWhile Char.isWhitespace =
        joinSpace (w :: rest) := by
      rw [hct, List.dropWhile_cons, if_neg (by simp [hcws])]
    have h2 : (joinSpace (w :: rest)).reverse.dropWhile Char.isWhitespace =
        (joinSpace (w :: rest)).reverse := by
      rw [hdu, List.dropWhile_cons, if_neg (by simp [hdws])]
    unfold pyStrip
    rw [h1, h2, List.reverse_reverse]

theorem cleanTitleWords_good (t : List Char) :
    ∀ w ∈ cleanTitleWords t, w ≠ [] ∧ ∀ c ∈ w, c.isWhitespace = false := by
  intro w hw
  unfold cleanTitleWords at hw
  by_cases h : (splitWs (cleanTitleCleaned t)).length > 2
  · rw [if_pos h] at hw
    exact splitWs_good _ w (List.mem_of_mem_filter hw)
  · rw [if_neg h] at hw
    exact splitWs_good _ w hw

theorem cleanTitle_strip_id (t : List Char) : pyStrip (cleanTitle t) = cleanTitle t :=
  pyStrip_joinSpace _ (cleanTitleWords_good t)

theorem cleanTitle_head_nonws (t : List Char) (h : cleanTitle t ≠ []) :
    ∃ c u, cleanTitle t = c :: u ∧ c.isWhitespace = false := by
  unfold cleanTitle at h ⊢
  cases hws : cleanTitleWords t with
  | nil => rw [hws] at h; exact absurd rfl h
  | cons w rest =>
    exact joinSpace_head_nonws (w :: rest) (hws ▸ cleanTitleWords_good t) (by simp)

theorem pyStrip_ne_nil {l : List Char} {c : Char} (hc : c ∈ l)
    (hws : c.isWhitespace = false) : pyStrip l ≠ [] := by
  intro h
  unfold pyStrip at h
  rw [List.reverse_eq_nil_iff, List.dropWhile_eq_nil_iff] at h
  have h2 : ∀ x ∈ l.dropWhile Char.isWhitespace, x.isWhitespace = true := by
    intro x hx
    exact h x (List.mem_reverse.mpr hx)
  have h3 : ∀ x ∈ l, x.isWhitespace = true := by
    intro x hx
    rcases List.mem_append.mp
        ((List.takeWhile_append_dropWhile Char.isWhitespace l) ▸ hx) with h4 | h4
    · exact List.mem_takeWhile_imp h4
    · exact h2 x h4
  rw [h3 c hc] at hws
  cases hws

theorem splitOnceAux_head (sep' : List Char) (c : Char) (cs : List Char)
    (hc : c.isWhitespace = false) (a b : List Char)
    (h : splitOnceAux (' ' :: sep') (c :: cs) = some (a, b)) :
    ∃ a', a = c :: a' := by
  have hpre : isPrefixL (' ' :: sep') (c :: cs) = false := by
    simp only [isPrefixL]
    rw [if_neg]
    intro h'
    rw [← h'] at hc
    exact absurd hc (by decide)
  simp only [splitOnceAux, hpre] at h
  rw [if_neg (by simp)] at h
  cases hsp : splitOnceAux (' ' :: sep') cs with
  | none => rw [hsp] at h; cases h
  | some pr =>
    rw [hsp] at h
    cases pr with
    | mk a₀ b₀ =>
      have ha : c :: a₀ = a := congrArg Prod.fst (Option.some.inj h)
      exact ⟨a₀, ha.symm⟩

theorem sepSplit_head (seps : List (List Char))
    (hseps : ∀ s ∈ seps, ∃ s', s = ' ' :: s') (c : Char) (cs : List Char)
    (hc : c.isWhitespace = false) (a b : List Char)
    (h : sepSplit seps (c :: cs) = some (a, b)) : ∃ a', a = c :: a' := by
  induction seps with
  | nil => cases h
  | cons sep rest ih =>
    simp only [sepSplit] at h
    cases hsp : splitOnceAux sep (c :: cs) with
    | some pr =>
      rw [hsp] at h
      obtain ⟨s', rfl⟩ := hseps sep (by simp)
      cases pr with
      | mk a₀ b₀ =>
        obtain ⟨a', ha⟩ := splitOnceAux_head s' c cs hc a₀ b₀ hsp
        have hae : a₀ = a := congrArg Prod.fst (Option.some.inj h)
        exact ⟨a', by rw [← hae, ha]⟩
    | none =>
      rw [hsp] at h
      exact ih (fun s hs => hseps s (by simp [hs])) h

theorem separators_head : ∀ s ∈ separators, ∃ s', s = ' ' :: s' := by
  intro s hs
  simp only [separators, List.mem_cons, List.not_mem_nil, or_false] at hs
  rcases hs with rfl | rfl | rfl | rfl | rfl
  · exact ⟨['b', 'y', ' '], by decide⟩
  · exact ⟨['B', 'Y', ' '], by decide⟩
  · exact ⟨['-', ' '], by decide⟩
  · exact ⟨[Char.ofNat 0xE2, Char.ofNat 0x20AC, Char.ofNat 0x201C, ' '], rfl⟩
  · exact ⟨['|', ' '], by decide⟩

theorem separateTitleAuthor_title_ne_nil (t : List Char) (c : Char) (u : List Char)
    (ht : t = c :: u) (hc : c.isWhitespace = false) :
    (separateTitleAuthor t).1 ≠ [] := by
  unfold separateTitleAuthor
  cases hsp : sepSplit separators t with
  | none =>
    exact pyStrip_ne_nil (by rw [ht]; exact List.mem_cons_self c u) hc
  | some pr =>
    cases pr with
    | mk a b =>
      subst ht
      obtain ⟨a', rfl⟩ := sepSplit_head separators separators_head c u hc a b hsp
      exact pyStrip_ne_nil (List.mem_cons_self c a') hc

theorem separateTitleAuthor_author_none (t : List Char)
    (h : (separateTitleAuthor t).2 = none) :
    (separateTitleAuthor t).1 = pyStrip t := by
  unfold separateTitleAuthor at h ⊢
  cases hsp : sepSplit separators t with
  | none => rfl
  | some pr =>
    rw [hsp] at h
    cases pr
    cases h

theorem scoreClamp_bounds (x : Score) :
    10 ≤ scoreMax 10 (scoreMin 100 x) ∧ scoreMax 10 (scoreMin 100 x) ≤ 100 := by
  unfold scoreMax scoreMin
  by_cases h1 : (100 : Score) ≤ x
  · rw [if_pos h1]
    norm_num
  · rw [if_neg h1]
    by_cases h2 : (10 : Score) ≤ x
    · rw [if_pos h2]
      exact ⟨h2, le_of_not_le h1⟩
    · rw [if_neg h2]
      norm_num

theorem estimateConfidence_bounds (t : List Char) :
    10 ≤ estimateConfidence t ∧ estimateConfidence t ≤ 100 := by
  obtain ⟨x, hx⟩ : ∃ x, estimateConfidence t = scoreMax 10 (scoreMin 100 x) := ⟨_, rfl⟩
  rw [hx]
  exact scoreClamp_bounds x

/-- The invariant that C7 asserts of every emitted candidate. -/
def candOk (c : BookCandidate) : Prop :=
  (10 ≤ c.confidence ∧ c.confidence ≤ 100) ∧ c.title ≠ []

theorem extractLoop_ok (m : Nat) (lines : List (List Char)) :
    ∀ (processed : List (List Char)) (acc : List BookCandidate),
      (∀ c ∈ acc, candOk c) → ∀ c ∈ extractLoop m lines processed acc, candOk c := by
  induction lines with
  | nil =>
    intro processed acc hacc c hc
    exact hacc c hc
  | cons line rest ih =>
    intro processed acc hacc c hc
    simp only [extractLoop] at hc
    by_cases h1 : line.length < 3
    · rw [if_pos h1] at hc
      exact ih _ _ hacc c hc
    · rw [if_neg h1] at hc
      by_cases h2 : isLikelyMetadata line = true
      · rw [if_pos h2] at hc
        exact ih _ _ hacc c hc
      · rw [if_neg h2] at hc
        by_cases h3 : cleanTitle line ≠ [] ∧
            (cleanTitle line).map Char.toLower ∉ processed
        · rw [if_pos h3] at hc
          have hbook : candOk
              ⟨(separateTitleAuthor (cleanTitle line)).1,
               (separateTitleAuthor (cleanTitle line)).2,
               estimateConfidence (cleanTitle line), none⟩ := by
            refine ⟨estimateConfidence_bounds _, ?_⟩
            obtain ⟨c0, u, hcu, hws0⟩ := cleanTitle_head_nonws line h3.1
            exact separateTitleAuthor_title_ne_nil _ c0 u hcu hws0
          have hacc' : ∀ x ∈ acc ++
              [(⟨(separateTitleAuthor (cleanTitle line)).1,
                 (separateTitleAuthor (cleanTitle line)).2,
                 estimateConfidence (cleanTitle line), none⟩ : BookCandidate)],
              candOk x := by
            intro x hx
            rcases List.mem_append.mp hx with hx | hx
            · exact hacc x hx
            · rw [List.mem_singleton.mp hx]
              exact hbook
          by_cases h4 : m ≤ (acc.length + 1)
          · rw [if_pos (by simpa using h4)] at hc
            exact hacc' c hc
          · rw [if_neg (by simpa using h4)] at hc
            exact ih _ _ hacc' c hc
        · rw [if_neg h3] at hc
          exact ih _ _ hacc c hc

theorem insertDesc_perm (x : BookCandidate) (l : List BookCandidate) :
    (insertDesc x l).Perm (x :: l) := by
  induction l with
  | nil => exact .refl _
  | cons y ys ih =>
    simp only [insertDesc]
    by_cases h : y.confidence < x.confidence
    · rw [if_pos h]
    · rw [if_neg h]
      exact (ih.cons y).trans (List.Perm.swap x y ys)

theorem sortByConfDesc_perm (l : List BookCandidate) : (sortByConfDesc l).Perm l := by
  have key : ∀ (l : List BookCandidate) (acc : List BookCandidate),
      (l.foldl (fun acc x => insertDesc x acc) acc).Perm (l ++ acc) := by
    intro l
    induction l with
    | nil => intro acc; exact .refl _
    | cons x xs ih =>
      intro acc
      have h2 := ih (insertDesc x acc)
      have h3 : (xs ++ insertDesc x acc).Perm (xs ++ (x :: acc)) :=
        List.Perm.append_left xs (insertDesc_perm x acc)
      exact (h2.trans (h3.trans List.perm_middle) : _)
  simpa using key l []

/-! ### C7 and C9 -/

/-- C7: every candidate produced by text normalization has confidence in
[0.1, 1.0] — the heuristic score starts at 0.5, is adjusted by the
bonuses and penalties, and is clamped to that range — and a non-empty
title. Scores are in hundredths: the integer bounds 10 ≤ conf ≤ 100 and
the rational bounds 1/10 ≤ conf/100 ≤ 1 are both stated. -/
theorem c7_candidate_bounds (texts : List String) (maxBooks : Nat)
    (c : BookCandidate) (hc : c ∈ extractBooksFromText texts maxBooks) :
    (10 ≤ c.confidence ∧ c.confidence ≤ 100) ∧
    (1/10 ≤ scoreQ c.confidence ∧ scoreQ c.confidence ≤ 1) ∧
    c.title ≠ [] := by
  have hok : candOk c := by
    cases texts with
    | nil => cases hc
    | cons fullText rest =>
      simp only [extractBooksFromText] at hc
      have h2 : c ∈ sortByConfDesc
          (extractLoop maxBooks
            (((splitOnChar '\n' fullText.toList).map pyStrip).filter (· ≠ [])) [] []) :=
        List.Sublist.mem hc (List.take_sublist _ _)
      have h3 := (sortByConfDesc_perm _).mem_iff.mp h2
      exact extractLoop_ok maxBooks _ [] [] (by simp) c h3
  refine ⟨hok.1, ⟨?_, ?_⟩, hok.2⟩
  · unfold scoreQ
    rw [le_div_iff₀ (by norm_num : (0:ℚ) < 100)]
    have : (10:ℚ) ≤ (c.confidence : ℚ) := by exact_mod_cast hok.1.1
    linarith
  · unfold scoreQ
    rw [div_le_one (by norm_num : (0:ℚ) < 100)]
    exact_mod_cast hok.1.2

/-- C7 witness. -/
theorem c7_candidate_bounds_witness :
    (10 ≤ (⟨"Foo".toList, some "Alice".toList, 90, none⟩ : BookCandidate).confidence ∧
      (⟨"Foo".toList, some "Alice".toList, 90, none⟩ : BookCandidate).confidence ≤ 100) ∧
    (1/10 ≤ scoreQ (⟨"Foo".toList, some "Alice".toList, 90, none⟩ :
        BookCandidate).confidence ∧
      scoreQ (⟨"Foo".toList, some "Alice".toList, 90, none⟩ :
        BookCandidate).confidence ≤ 1) ∧
    (⟨"Foo".toList, some "Alice".toList, 90, none⟩ : BookCandidate).title ≠ [] :=
  c7_candidate_bounds ["Foo by Alice"] 20
    ⟨"Foo".toList, some "Alice".toList, 90, none⟩ (by decide)

/-- The relation the amended C9 asserts pairwise on output candidates:
among candidates with no detected author separator, titles are distinct
up to letter case. -/
def titleCaseDistinct (a b : BookCandidate) : Prop :=
  a.author = none → b.author = none →
    a.title.map Char.toLower ≠ b.title.map Char.toLower

theorem extractLoop_pairwise (m : Nat) (lines : List (List Char)) :
    ∀ (processed : List (List Char)) (acc : List BookCandidate),
      acc.Pairwise titleCaseDistinct →
      (∀ c ∈ acc, c.author = none → c.title.map Char.toLower ∈ processed) →
      (extractLoop m lines processed acc).Pairwise titleCaseDistinct := by
  induction lines with
  | nil =>
    intro processed acc hpw _
    exact hpw
  | cons line rest ih =>
    intro processed acc hpw hmem
    simp only [extractLoop]
    by_cases h1 : line.length < 3
    · rw [if_pos h1]
      exact ih _ _ hpw hmem
    · rw [if_neg h1]
      by_cases h2 : isLikelyMetadata line = true
      · rw [if_pos h2]
        exact ih _ _ hpw hmem
      · rw [if_neg h2]
        by_cases h3 : cleanTitle line ≠ [] ∧
            (cleanTitle line).map Char.toLower ∉ processed
        · rw [if_pos h3]
          have hbt : ∀ hb : (separateTitleAuthor (cleanTitle line)).2 = none,
              (separateTitleAuthor (cleanTitle line)).1 = cleanTitle line := by
            intro hb
            rw [separateTitleAuthor_author_none _ hb, cleanTitle_strip_id]
          have hpw' : (acc ++
              [(⟨(separateTitleAuthor (cleanTitle line)).1,
                 (separateTitleAuthor (cleanTitle line)).2,
                 estimateConfidence (cleanTitle line), none⟩ : BookCandidate)]).Pairwise
              titleCaseDistinct := by
            rw [List.pairwise_append]
            refine ⟨hpw, List.pairwise_singleton _ _, ?_⟩
            intro a ha x hx
            rw [List.mem_singleton.mp hx]
            intro hanone hbnone heq
            have h5 := hmem a ha hanone
            rw [heq] at h5
            have h6 : (separateTitleAuthor (cleanTitle line)).1 = cleanTitle line :=
              hbt hbnone
            rw [h6] at h5
            exact h3.2 h5
          have hmem' : ∀ x ∈ acc ++
              [(⟨(separateTitleAuthor (cleanTitle line)).1,
                 (separateTitleAuthor (cleanTitle line)).2,
                 estimateConfidence (cleanTitle line), none⟩ : BookCandidate)],
              x.author = none → x.title.map Char.toLower ∈
                (cleanTitle line).map Char.toLower :: processed := by
            intro x hx hxa
            rcases List.mem_append.mp hx with hx | hx
            · exact List.mem_cons_of_mem _ (hmem x hx hxa)
            · rw [List.mem_singleton.mp hx] at hxa ⊢
              rw [hbt hxa]
              exact List.mem_cons_self _ _
          by_cases h4 : m ≤ (acc.length + 1)
          · rw [if_pos (by simpa using h4)]
            exact hpw'
          · rw [if_neg (by simpa using h4)]
            exact ih _ _ hpw' hmem'
        · rw [if_neg h3]
          exact ih _ _ hpw hmem

/-- C9 counterexample: the OCR text "Foo by Alice\nFoo by Bob" yields two
candidates that both have title "Foo" (equal even after lowercasing):
deduplication happens on the full cleaned line before the title/author
split, refuting the claim that no two output candidates have titles equal
up to letter case. -/
theorem c9_duplicate_titles :
    extractBooksFromText ["Foo by Alice\nFoo by Bob"] 20 =
      [⟨"Foo".toList, some "Alice".toList, 90, none⟩,
       ⟨"Foo".toList, some "Bob".toList, 90, none⟩] ∧
    (extractBooksFromText ["Foo by Alice\nFoo by Bob"] 20).map
        (fun c => c.title.map Char.toLower) =
      ["foo".toList, "foo".toList] := by
  refine ⟨by decide, by decide⟩

/-- C9 (amended): deduplication is case-insensitive on the full cleaned
line *before* the title/author split, so two candidates may share a
title when their lines differ in the author part; among candidates
without a detected author separator (`author = none`), titles are
pairwise distinct up to letter case. -/
theorem c9_dedup_on_cleaned_line (texts : List String) (maxBooks : Nat) :
    (extractBooksFromText texts maxBooks).Pairwise titleCaseDistinct := by
  cases texts with
  | nil => exact List.Pairwise.nil
  | cons fullText rest =>
    simp only [extractBooksFromText]
    have hsym : ∀ {x y : BookCandidate},
        titleCaseDistinct x y → titleCaseDistinct y x := by
      intro x y h hy hx
      exact fun he => h hx hy he.symm
    have hloop := extractLoop_pairwise maxBooks
      (((splitOnChar '\n' fullText.toList).map pyStrip).filter (· ≠ [])) [] []
      List.Pairwise.nil (by simp)
    have hsorted := ((sortByConfDesc_perm _).pairwise_iff hsym).mpr hloop
    exact List.Pairwise.sublist (List.take_sublist _ _) hsorted

end ShelfScanner

